import Mathlib

/-!
Verification of the inverter communication core of `dbus-goodwe-em-pvinverter`
(`src/lib/goodwe/inverter.py`), shallowly embedded in Lean 4.

Conventions of the embedding:
* byte buffers are `List Nat` (each element one byte);
* Python exceptions become an explicit error type `PyError`; a function that can
  raise returns `Except PyError α`;
* the mutable `Inverter` object becomes a structure threaded explicitly, methods
  that mutate it return the new state;
* the asyncio event loop and lock objects are identified by their object
  identity, embedded as `Nat` identifiers;
* `_read_from_socket` awaits `command.execute(...)`; the outcome of that network
  exchange is passed in as an explicit `Except PyError (List Nat)` value.
-/

namespace Goodwe

/-- The Python exceptions reachable in `inverter.py`.  `MaxRetriesException` and
`RequestFailedException` live in the sibling module `goodwe/exceptions.py`; their
payloads are modelled from the spec: the max-retries error "carries the number of
attempts", the request-failed error "carries a human-readable message and the
instance's current consecutive-failure count". -/
inductive PyError where
  | MaxRetriesException (attempts : Nat)
  | RequestFailedException (message : String) (failures : Nat)
  | ValueError
  | OtherException (message : String)
  | NotImplementedError
deriving DecidableEq, Repr

/-- `True` exactly on the max-retries error kind. -/
def PyError.isMaxRetries : PyError → Bool
  | .MaxRetriesException _ => true
  | _ => false

/-- Decoded sensor values (numeric or string), the `Any` of the Python sensor
read interface. -/
inductive Value where
  | int (n : Int)
  | str (s : String)
deriving DecidableEq, Repr

/-- `SensorKind` enumeration from `inverter.py`. -/
inductive SensorKind where
  | PV
  | AC
  | UPS
  | BAT
  | GRID
deriving DecidableEq, Repr

/-- The `Sensor` dataclass of `inverter.py`.  `read_value` is the abstract
method overridden by the concrete field types (which live outside this file's
sources); it is embedded as a function field receiving the bytes of the buffer
from the current position (the position `read` seeks to) onward. -/
structure Sensor where
  id_ : String
  offset : Nat
  name : String
  size_ : Nat
  unit : String
  kind : Option SensorKind
  read_value : List Nat → Except PyError Value

/-- `Sensor.read`: seek the buffer to `offset`, then `read_value` from there
(`data.seek(self.offset); return self.read_value(data)`). -/
def Sensor.read (s : Sensor) (data : List Nat) : Except PyError Value :=
  s.read_value (data.drop s.offset)

/-- Big-endian unsigned interpretation of a byte list. -/
def bytesToNat (bs : List Nat) : Nat :=
  bs.foldl (fun acc b => acc * 256 + b) 0

/-- Modelled from the spec: the concrete integer field types (missing module
`goodwe/sensor.py`) implement `read_value` by decoding `size` bytes at the
current position as an unsigned integer, failing "with a decode error if the
buffer is shorter than `offset+size`". -/
def intReadValue (size : Nat) (bytes : List Nat) : Except PyError Value :=
  if size ≤ bytes.length then
    .ok (.int (bytesToNat (bytes.take size)))
  else
    .error .ValueError

/-- An integer sensor built on `intReadValue`. -/
def mkIntSensor (id_ : String) (offset : Nat) (name : String) (size_ : Nat)
    (unit : String) (kind : Option SensorKind) : Sensor :=
  ⟨id_, offset, name, size_, unit, kind, intReadValue size_⟩

/-- Python `dict` insertion: replace the binding if the key is present
(preserving its position), append otherwise. -/
def dictInsert (d : List (String × Option Value)) (k : String) (v : Option Value) :
    List (String × Option Value) :=
  match d with
  | [] => [(k, v)]
  | p :: rest => if p.1 = k then (k, v) :: rest else p :: dictInsert rest k v

/-- Python `dict` lookup on the association-list embedding. -/
def lookupD (d : List (String × Option Value)) (k : String) : Option (Option Value) :=
  match d with
  | [] => none
  | p :: rest => if p.1 = k then some p.2 else lookupD rest k

/-- The loop body of `Inverter._map_response`, with the accumulated result dict
made explicit: for each sensor, if `incl_xx or not sensor.id_.startswith("xx")`,
try `sensor.read(buffer)`; a `ValueError` records the value as `None`
(here `none`) and continues; any other exception propagates. -/
def _map_response_go (resp_data : List Nat) (incl_xx : Bool) :
    List Sensor → List (String × Option Value) → Except PyError (List (String × Option Value))
  | [], result => .ok result
  | sensor :: rest, result =>
    if incl_xx || !(sensor.id_.startsWith "xx") then
      match sensor.read resp_data with
      | .ok v => _map_response_go resp_data incl_xx rest (dictInsert result sensor.id_ (some v))
      | .error .ValueError => _map_response_go resp_data incl_xx rest (dictInsert result sensor.id_ none)
      | .error e => .error e
    else
      _map_response_go resp_data incl_xx rest result

/-- `Inverter._map_response(resp_data, sensors, incl_xx)`. -/
def Inverter._map_response (resp_data : List Nat) (sensors : List Sensor) (incl_xx : Bool) :
    Except PyError (List (String × Option Value)) :=
  _map_response_go resp_data incl_xx sensors []

/-- `ProtocolCommand(request, validator)` as imported by `inverter.py` from the
missing module `goodwe/protocol.py`: request bytes plus a response-validating
predicate. -/
structure ProtocolCommand where
  request : List Nat
  validator : List Nat → Bool

/-- Modelled from the spec: the attempt loop of `ProtocolCommand.execute`
(`goodwe/protocol.py` is not under `src/`).  `responses i` is the response the
network delivers on attempt `i` (`none`: timeout / no response).  Each attempt
applies the validator; "a rejected or absent response counts as one failed
attempt"; the first validated response is returned. -/
def executeLoop (validator : List Nat → Bool) (responses : Nat → Option (List Nat))
    (total : Nat) : Nat → Nat → Except PyError (List Nat)
  | _, 0 => .error (.MaxRetriesException total)
  | attempt, left + 1 =>
    match responses attempt with
    | some r => if validator r then .ok r else executeLoop validator responses total (attempt + 1) left
    | none => executeLoop validator responses total (attempt + 1) left

/-- Modelled from the spec: `ProtocolCommand.execute(host, timeout, retries)`
(`goodwe/protocol.py` is not under `src/`): "Retries up to `retries` additional
attempts on failure; fails with a max-retries error carrying the number of
attempts if all attempts are exhausted".  The network is abstracted into the
per-attempt response function. -/
def ProtocolCommand.execute (cmd : ProtocolCommand) (responses : Nat → Option (List Nat))
    (retries : Nat) : Except PyError (List Nat) :=
  executeLoop cmd.validator responses (retries + 1) 0 (retries + 1)

/-- The `Inverter` object state: connection parameters, lock/loop bookkeeping,
the consecutive-failure counter, and the identity fields, exactly the instance
variables assigned in `Inverter.__init__`.  Lock and loop objects are embedded
by their identities (`Option Nat`, `none` for Python `None`). -/
structure Inverter where
  host : String
  comm_addr : Nat
  timeout : Nat
  retries : Nat
  _running_loop : Option Nat
  _lock : Option Nat
  _consecutive_failures_count : Nat
  model_name : Option String
  serial_number : Option String
  software_version : Option String
  modbus_version : Option Int
  rated_power : Option Int
  ac_output_type : Option Int
  dsp1_sw_version : Option Int
  dsp2_sw_version : Option Int
  dsp_svn_version : Option Int
  arm_sw_version : Int
  arm_svn_version : Option Int
  arm_version : Option String
deriving DecidableEq, Repr

/-- `Inverter.__init__(host, comm_addr=0, timeout=1, retries=3)`. -/
def Inverter.init (host : String) (comm_addr timeout retries : Nat) : Inverter where
  host := host
  comm_addr := comm_addr
  timeout := timeout
  retries := retries
  _running_loop := none
  _lock := none
  _consecutive_failures_count := 0
  model_name := none
  serial_number := none
  software_version := none
  modbus_version := none
  rated_power := none
  ac_output_type := none
  dsp1_sw_version := none
  dsp2_sw_version := none
  dsp_svn_version := none
  arm_sw_version := 0
  arm_svn_version := none
  arm_version := none

/-- `Inverter._ensure_lock`: return the existing lock if there is one and its
recorded creating loop equals the currently running loop
(`asyncio.get_event_loop()`, passed in as `current_loop`); otherwise create a
fresh lock (`fresh_lock` stands for the new `asyncio.Lock()` object) and record
the current loop.  Answers the lock handed to `async with` plus the updated
instance. -/
def Inverter._ensure_lock (inv : Inverter) (current_loop fresh_lock : Nat) :
    Nat × Inverter :=
  if inv._lock.isSome ∧ inv._running_loop = some current_loop then
    (inv._lock.getD fresh_lock, inv)
  else
    (fresh_lock, { inv with _lock := some fresh_lock, _running_loop := some current_loop })

/-- `Inverter._read_from_socket(command)` after the `await
command.execute(self.host, self.timeout, self.retries)` has produced
`execResult`: on success reset the consecutive-failure counter and return the
bytes; a `MaxRetriesException` increments the counter and is replaced by a
`RequestFailedException` with the "No valid response received even after
{retries} retries" message and the counter; a `RequestFailedException`
increments the counter and is re-raised with its message and the counter; any
other exception is not caught. -/
def Inverter._read_from_socket (inv : Inverter) (execResult : Except PyError (List Nat)) :
    Except PyError (List Nat) × Inverter :=
  match execResult with
  | .ok result =>
    (.ok result, { inv with _consecutive_failures_count := 0 })
  | .error (.MaxRetriesException _) =>
    let n := inv._consecutive_failures_count + 1
    (.error (.RequestFailedException
        ("No valid response received even after " ++ toString inv.retries ++ " retries") n),
     { inv with _consecutive_failures_count := n })
  | .error (.RequestFailedException message _) =>
    let n := inv._consecutive_failures_count + 1
    (.error (.RequestFailedException message n),
     { inv with _consecutive_failures_count := n })
  | .error e => (.error e, inv)

/-- The default validator of `Inverter.send_command` (`lambda x: True`). -/
def defaultValidator : List Nat → Bool := fun _ => true

/-- `Inverter.send_command(command, validator)`: wrap the bytes and validator
into a `ProtocolCommand` and run it through `_read_from_socket`. -/
def Inverter.send_command (inv : Inverter) (command : List Nat)
    (validator : List Nat → Bool) (responses : Nat → Option (List Nat)) :
    Except PyError (List Nat) × Inverter :=
  inv._read_from_socket ((ProtocolCommand.mk command validator).execute responses inv.retries)

/-- `Inverter.read_device_info`: abstract, `raise NotImplementedError()`. -/
def Inverter.read_device_info (_ : Inverter) : Except PyError Unit :=
  .error .NotImplementedError

/-- `Inverter.read_runtime_data`: abstract, `raise NotImplementedError()`. -/
def Inverter.read_runtime_data (_ : Inverter) (_ : Bool) :
    Except PyError (List (String × Option Value)) :=
  .error .NotImplementedError

/-- `Inverter.read_setting`: abstract, `raise NotImplementedError()`. -/
def Inverter.read_setting (_ : Inverter) (_ : String) : Except PyError Value :=
  .error .NotImplementedError

/-- `Inverter.write_setting`: abstract, `raise NotImplementedError()`. -/
def Inverter.write_setting (_ : Inverter) (_ : String) (_ : Value) : Except PyError Unit :=
  .error .NotImplementedError

/-- `Inverter.read_settings_data`: abstract, `raise NotImplementedError()`. -/
def Inverter.read_settings_data (_ : Inverter) :
    Except PyError (List (String × Option Value)) :=
  .error .NotImplementedError

/-- `Inverter.get_grid_export_limit`: abstract, `raise NotImplementedError()`. -/
def Inverter.get_grid_export_limit (_ : Inverter) : Except PyError Int :=
  .error .NotImplementedError

/-- `Inverter.set_grid_export_limit`: abstract, `raise NotImplementedError()`. -/
def Inverter.set_grid_export_limit (_ : Inverter) (_ : Int) : Except PyError Unit :=
  .error .NotImplementedError

/-- `Inverter.get_operation_mode`: abstract, `raise NotImplementedError()`. -/
def Inverter.get_operation_mode (_ : Inverter) : Except PyError Int :=
  .error .NotImplementedError

/-- `Inverter.set_operation_mode`: abstract, `raise NotImplementedError()`. -/
def Inverter.set_operation_mode (_ : Inverter) (_ : Int) (_ : Int) : Except PyError Unit :=
  .error .NotImplementedError

/-- `Inverter.get_ongrid_battery_dod`: abstract, `raise NotImplementedError()`. -/
def Inverter.get_ongrid_battery_dod (_ : Inverter) : Except PyError Int :=
  .error .NotImplementedError

/-- `Inverter.set_ongrid_battery_dod`: abstract, `raise NotImplementedError()`. -/
def Inverter.set_ongrid_battery_dod (_ : Inverter) (_ : Int) : Except PyError Unit :=
  .error .NotImplementedError

/-- `Inverter.sensors`: abstract, `raise NotImplementedError()`. -/
def Inverter.sensors (_ : Inverter) : Except PyError (List Sensor) :=
  .error .NotImplementedError

/-- `Inverter.settings`: abstract, `raise NotImplementedError()`. -/
def Inverter.settings (_ : Inverter) : Except PyError (List Sensor) :=
  .error .NotImplementedError

/-- A sensor is processed by `_map_response` when `incl_xx or not
sensor.id_.startswith("xx")`. -/
def processed (incl_xx : Bool) (s : Sensor) : Bool :=
  incl_xx || !(s.id_.startsWith "xx")

/-- The dictionary value `_map_response` records for a processed sensor whose
read does not escape: the decoded value, or `none` after a `ValueError`. -/
def entryOf (buf : List Nat) (s : Sensor) : Option Value :=
  match s.read buf with
  | .ok v => some v
  | .error _ => none

/-- One processed-sensor step of `_map_response`, as a fold step on the result
dictionary. -/
def mapStep (buf : List Nat) (incl_xx : Bool) (acc : List (String × Option Value))
    (s : Sensor) : List (String × Option Value) :=
  if processed incl_xx s then dictInsert acc s.id_ (entryOf buf s) else acc

/-- `true` when a read outcome is contained by `_map_response`'s
`except ValueError` handler (a value, or a `ValueError`). -/
def containedRead (r : Except PyError Value) : Bool :=
  match r with
  | .ok _ => true
  | .error .ValueError => true
  | .error _ => false

/-- A command-execution outcome that `_read_from_socket` counts as a failure
(the two exception kinds its handlers catch). -/
def isExchangeFailure (r : Except PyError (List Nat)) : Bool :=
  match r with
  | .error (.MaxRetriesException _) => true
  | .error (.RequestFailedException _ _) => true
  | _ => false

/-- A sequence of exchanges through `_read_from_socket`, keeping only the
instance state. -/
def runExchanges (inv : Inverter) (rs : List (Except PyError (List Nat))) : Inverter :=
  rs.foldl (fun i r => (i._read_from_socket r).2) inv

/-- The identity fields of an `Inverter`, bundled. -/
def identityFields (inv : Inverter) :
    Option String × Option String × Option String × Option Int × Option Int ×
      Option Int × Option Int × Option Int × Option Int × Int × Option Int × Option String :=
  (inv.model_name, inv.serial_number, inv.software_version, inv.modbus_version,
   inv.rated_power, inv.ac_output_type, inv.dsp1_sw_version, inv.dsp2_sw_version,
   inv.dsp_svn_version, inv.arm_sw_version, inv.arm_svn_version, inv.arm_version)

/-- `true` when an exchange outcome is a raised max-retries error. -/
def raisedMaxRetries (r : Except PyError (List Nat)) : Bool :=
  match r with
  | .error e => e.isMaxRetries
  | .ok _ => false

/-- A concrete PV-voltage integer sensor (spec §8 example table). -/
def vpv1 : Sensor := mkIntSensor "vpv1" 0 "PV1 Voltage" 2 "V" (some .PV)

/-- A concrete PV-power integer sensor (spec §8 example table). -/
def ppv1 : Sensor := mkIntSensor "ppv1" 2 "PV1 Power" 2 "W" (some .PV)

/-- A concrete unidentified ("xx"-prefixed) integer sensor. -/
def xx44 : Sensor := mkIntSensor "xx44" 4 "Unknown sensor 44" 2 "" none

/-- A concrete sensor whose read raises a non-`ValueError` exception. -/
def badSensor : Sensor :=
  ⟨"bad", 0, "Broken sensor", 2, "", none, fun _ => .error (.OtherException "boom")⟩

/-- A concrete `Inverter` state holding a lock created on loop `1`. -/
def invWithLock : Inverter :=
  { Inverter.init "inverter.local" 0 1 3 with _lock := some 7, _running_loop := some 1 }

theorem lookupD_dictInsert_self (d : List (String × Option Value)) (k : String)
    (v : Option Value) : lookupD (dictInsert d k v) k = some v := by
  induction d with
  | nil => simp [dictInsert, lookupD]
  | cons p rest ih =>
    by_cases h : p.1 = k
    · simp [dictInsert, h, lookupD]
    · simp [dictInsert, h, lookupD, ih]

theorem lookupD_dictInsert_ne (d : List (String × Option Value)) (k k' : String)
    (v : Option Value) (h : k' ≠ k) :
    lookupD (dictInsert d k v) k' = lookupD d k' := by
  induction d with
  | nil => simp [dictInsert, lookupD, Ne.symm h]
  | cons p rest ih =>
    by_cases hp : p.1 = k
    · subst hp
      simp [dictInsert, lookupD, Ne.symm h]
    · by_cases hp' : p.1 = k'
      · simp [dictInsert, hp, lookupD, hp', h]
      · simp [dictInsert, hp, lookupD, hp', ih]

theorem dictInsert_of_not_mem (d : List (String × Option Value)) (k : String)
    (v : Option Value) (h : k ∉ d.map Prod.fst) :
    dictInsert d k v = d ++ [(k, v)] := by
  induction d with
  | nil => rfl
  | cons p rest ih =>
    simp only [List.map_cons, List.mem_cons, not_or] at h
    simp [dictInsert, Ne.symm h.1, ih h.2]

theorem _map_response_go_append (buf : List Nat) (incl_xx : Bool) :
    ∀ (pre rest : List Sensor) (acc : List (String × Option Value)),
    (∀ t ∈ pre, containedRead (t.read buf) = true) →
    _map_response_go buf incl_xx (pre ++ rest) acc
      = _map_response_go buf incl_xx rest (pre.foldl (mapStep buf incl_xx) acc) := by
  intro pre
  induction pre with
  | nil => intro rest acc _; rfl
  | cons t pre' ih =>
    intro rest acc hpre
    have ht : containedRead (t.read buf) = true := hpre t (by simp)
    have hpre' : ∀ u ∈ pre', containedRead (u.read buf) = true :=
      fun u hu => hpre u (by simp [hu])
    rw [List.cons_append, List.foldl_cons]
    by_cases hc : (incl_xx || !(t.id_.startsWith "xx")) = true
    · cases hr : t.read buf with
      | ok v =>
        rw [_map_response_go]
        simp only [hc, if_true, hr]
        rw [ih rest _ hpre']
        have : mapStep buf incl_xx acc t = dictInsert acc t.id_ (some v) := by
          simp [mapStep, processed, hc, entryOf, hr]
        rw [this]
      | error e =>
        cases e with
        | ValueError =>
          rw [_map_response_go]
          simp only [hc, if_true, hr]
          rw [ih rest _ hpre']
          have : mapStep buf incl_xx acc t = dictInsert acc t.id_ none := by
            simp [mapStep, processed, hc, entryOf, hr]
          rw [this]
        | MaxRetriesException a => simp [containedRead, hr] at ht
        | RequestFailedException m f => simp [containedRead, hr] at ht
        | OtherException m => simp [containedRead, hr] at ht
        | NotImplementedError => simp [containedRead, hr] at ht
    · rw [_map_response_go]
      rw [if_neg hc]
      rw [ih rest _ hpre']
      have : mapStep buf incl_xx acc t = acc := by
        simp [mapStep, processed, hc]
      rw [this]

theorem _map_response_go_eq_foldl (buf : List Nat) (incl_xx : Bool)
    (sensors : List Sensor) (acc : List (String × Option Value))
    (h : ∀ t ∈ sensors, containedRead (t.read buf) = true) :
    _map_response_go buf incl_xx sensors acc
      = .ok (sensors.foldl (mapStep buf incl_xx) acc) := by
  have := _map_response_go_append buf incl_xx sensors [] acc h
  rw [List.append_nil] at this
  rw [this]
  rfl

theorem lookupD_foldl_of_not_mem (buf : List Nat) (incl_xx : Bool) :
    ∀ (sensors : List Sensor) (acc : List (String × Option Value)) (k : String),
    k ∉ sensors.map Sensor.id_ →
    lookupD (sensors.foldl (mapStep buf incl_xx) acc) k = lookupD acc k := by
  intro sensors
  induction sensors with
  | nil => intro acc k _; rfl
  | cons s rest ih =>
    intro acc k hk
    simp only [List.map_cons, List.mem_cons, not_or] at hk
    rw [List.foldl_cons, ih _ k hk.2]
    by_cases hc : processed incl_xx s = true
    · simp [mapStep, hc, lookupD_dictInsert_ne _ _ _ _ hk.1]
    · simp [mapStep, hc]

theorem lookupD_foldl_of_mem (buf : List Nat) (incl_xx : Bool) :
    ∀ (sensors : List Sensor) (acc : List (String × Option Value)) (s : Sensor),
    s ∈ sensors → (sensors.map Sensor.id_).Nodup → processed incl_xx s = true →
    lookupD (sensors.foldl (mapStep buf incl_xx) acc) s.id_ = some (entryOf buf s) := by
  intro sensors
  induction sensors with
  | nil => intro acc s hs; exact absurd hs (List.not_mem_nil s)
  | cons t rest ih =>
    intro acc s hs hnd hp
    rw [List.foldl_cons]
    rw [List.map_cons] at hnd
    rcases List.mem_cons.1 hs with rfl | hs'
    · have hnotin : s.id_ ∉ rest.map Sensor.id_ := (List.nodup_cons.1 hnd).1
      rw [lookupD_foldl_of_not_mem buf incl_xx rest _ _ hnotin]
      simp [mapStep, hp, lookupD_dictInsert_self]
    · exact ih _ s hs' (List.nodup_cons.1 hnd).2 hp

theorem foldl_mapStep_keys (buf : List Nat) (incl_xx : Bool) :
    ∀ (sensors : List Sensor) (acc : List (String × Option Value)),
    (acc.map Prod.fst ++ ((sensors.filter (processed incl_xx)).map Sensor.id_)).Nodup →
    (sensors.foldl (mapStep buf incl_xx) acc).map Prod.fst
      = acc.map Prod.fst ++ ((sensors.filter (processed incl_xx)).map Sensor.id_) := by
  intro sensors
  induction sensors with
  | nil => intro acc _; simp
  | cons s rest ih =>
    intro acc hnd
    rw [List.foldl_cons]
    by_cases hc : processed incl_xx s = true
    · have hfil : (s :: rest).filter (processed incl_xx) = s :: rest.filter (processed incl_xx) := by
        simp [List.filter_cons, hc]
      rw [hfil] at hnd ⊢
      rw [List.map_cons] at hnd ⊢
      rcases List.nodup_append.1 hnd with ⟨hA, hB, hdisj⟩
      have hnotin : s.id_ ∉ acc.map Prod.fst := fun hmem => hdisj hmem (by simp)
      have hstep : mapStep buf incl_xx acc s = acc ++ [(s.id_, entryOf buf s)] := by
        simp [mapStep, hc, dictInsert_of_not_mem _ _ _ hnotin]
      rw [hstep]
      have hnd' : ((acc ++ [(s.id_, entryOf buf s)]).map Prod.fst
          ++ ((rest.filter (processed incl_xx)).map Sensor.id_)).Nodup := by
        simp only [List.map_append, List.map_cons, List.map_nil]
        simpa [List.append_assoc] using hnd
      rw [ih _ hnd']
      simp [List.append_assoc]
    · have hfil : (s :: rest).filter (processed incl_xx) = rest.filter (processed incl_xx) := by
        simp [List.filter_cons, hc]
      rw [hfil] at hnd ⊢
      have : mapStep buf incl_xx acc s = acc := by simp [mapStep, hc]
      rw [this]
      exact ih acc hnd

theorem containedRead_int (buf : List Nat) (s : Sensor)
    (hread : s.read_value = intReadValue s.size_) :
    containedRead (s.read buf) = true := by
  unfold Sensor.read
  rw [hread]
  unfold intReadValue
  by_cases h : s.size_ ≤ buf.length - s.offset <;>
    simp [List.length_drop, h, containedRead]

theorem entryOf_int (buf : List Nat) (s : Sensor)
    (hread : s.read_value = intReadValue s.size_) (hpos : 0 < s.size_) :
    entryOf buf s = if s.offset + s.size_ ≤ buf.length
      then some (Value.int (bytesToNat ((buf.drop s.offset).take s.size_)))
      else none := by
  unfold entryOf Sensor.read
  rw [hread]
  unfold intReadValue
  by_cases h : s.size_ ≤ buf.length - s.offset
  · have h2 : s.offset + s.size_ ≤ buf.length := by omega
    simp [List.length_drop, h, h2]
  · have h2 : ¬ s.offset + s.size_ ≤ buf.length := by omega
    simp [List.length_drop, h, h2]

theorem executeLoop_all_rejected (v : List Nat → Bool) (responses : Nat → Option (List Nat))
    (total : Nat) (hrej : ∀ i r, responses i = some r → v r = false) :
    ∀ (left attempt : Nat),
    executeLoop v responses total attempt left = .error (.MaxRetriesException total) := by
  intro left
  induction left with
  | zero => intro attempt; rfl
  | succ n ih =>
    intro attempt
    rw [executeLoop]
    cases hr : responses attempt with
    | none => exact ih (attempt + 1)
    | some r =>
      have hv := hrej attempt r hr
      simp only [hv, Bool.false_eq_true, if_false]
      exact ih (attempt + 1)

/-- C2: mapping a response through a sensor table attempts each sensor in table
order; a sensor whose byte range does not fit in the buffer is recorded as
absent (`none`) while every other sensor's value is decoded — decoding never
aborts and no field's failure disturbs the rest of the table. -/
theorem map_response_isolates_short_reads (sensors : List Sensor) (buf : List Nat)
    (hint : ∀ s ∈ sensors, s.read_value = intReadValue s.size_)
    (hpos : ∀ s ∈ sensors, 0 < s.size_)
    (hnd : (sensors.map Sensor.id_).Nodup) :
    ∃ m, Inverter._map_response buf sensors true = .ok m ∧
      ∀ s ∈ sensors, lookupD m s.id_ =
        some (if s.offset + s.size_ ≤ buf.length
              then some (Value.int (bytesToNat ((buf.drop s.offset).take s.size_)))
              else none) := by
  have hcont : ∀ t ∈ sensors, containedRead (t.read buf) = true :=
    fun t ht => containedRead_int buf t (hint t ht)
  refine ⟨sensors.foldl (mapStep buf true) [], ?_, ?_⟩
  · unfold Inverter._map_response
    exact _map_response_go_eq_foldl buf true sensors [] hcont
  · intro s hs
    rw [lookupD_foldl_of_mem buf true sensors [] s hs hnd (by simp [processed])]
    rw [entryOf_int buf s (hint s hs) (hpos s hs)]

theorem map_response_isolates_short_reads_witness :
    ∃ m, Inverter._map_response [1, 44] [vpv1, ppv1] true = .ok m ∧
      ∀ s ∈ [vpv1, ppv1], lookupD m s.id_ =
        some (if s.offset + s.size_ ≤ ([1, 44] : List Nat).length
              then some (Value.int (bytesToNat ((([1, 44] : List Nat).drop s.offset).take s.size_)))
              else none) :=
  map_response_isolates_short_reads [vpv1, ppv1] [1, 44]
    (by intro s hs; fin_cases hs <;> rfl)
    (by intro s hs; fin_cases hs <;> decide)
    (by decide)

/-- C3: with `incl_xx = false` the result of `_map_response` has no entry for
any sensor whose id starts with `"xx"` (its keys are exactly the ids of the
non-`"xx"` sensors, in table order); with `incl_xx = true` the keys are exactly
the ids of all sensors; in both cases each processed id occurs exactly once
(the key list is duplicate-free). -/
theorem map_response_unknown_sensor_filtering (sensors : List Sensor) (buf : List Nat)
    (hint : ∀ s ∈ sensors, s.read_value = intReadValue s.size_)
    (hnd : (sensors.map Sensor.id_).Nodup) :
    (∃ m, Inverter._map_response buf sensors false = .ok m ∧
      m.map Prod.fst = (sensors.filter (fun s => !(s.id_.startsWith "xx"))).map Sensor.id_ ∧
      (∀ k ∈ m.map Prod.fst, k.startsWith "xx" = false) ∧
      (m.map Prod.fst).Nodup) ∧
    (∃ m, Inverter._map_response buf sensors true = .ok m ∧
      m.map Prod.fst = sensors.map Sensor.id_ ∧
      (m.map Prod.fst).Nodup) := by
  have hcont : ∀ t ∈ sensors, containedRead (t.read buf) = true :=
    fun t ht => containedRead_int buf t (hint t ht)
  have hpf : processed false = fun s => !(s.id_.startsWith "xx") := by
    funext s; simp [processed]
  have hpt : sensors.filter (processed true) = sensors := by
    apply List.filter_eq_self.2
    intro s _
    simp [processed]
  constructor
  · have hsub : ((sensors.filter (processed false)).map Sensor.id_).Sublist
        (sensors.map Sensor.id_) :=
      List.Sublist.map Sensor.id_ (List.filter_sublist sensors)
    have hfnd : ((sensors.filter (processed false)).map Sensor.id_).Nodup :=
      List.Nodup.sublist hsub hnd
    have hkeys := foldl_mapStep_keys buf false sensors [] (by simpa using hfnd)
    refine ⟨sensors.foldl (mapStep buf false) [], ?_, ?_, ?_, ?_⟩
    · unfold Inverter._map_response
      exact _map_response_go_eq_foldl buf false sensors [] hcont
    · rw [hkeys, hpf]
      simp
    · intro k hk
      rw [hkeys] at hk
      simp only [List.map_nil, List.nil_append, List.mem_map, List.mem_filter] at hk
      rcases hk with ⟨s, ⟨_, hxx⟩, rfl⟩
      rw [hpf] at hxx
      simpa using hxx
    · rw [hkeys]
      simpa using hfnd
  · have hkeys := foldl_mapStep_keys buf true sensors [] (by rw [hpt]; simpa using hnd)
    refine ⟨sensors.foldl (mapStep buf true) [], ?_, ?_, ?_⟩
    · unfold Inverter._map_response
      exact _map_response_go_eq_foldl buf true sensors [] hcont
    · rw [hkeys, hpt]
      simp
    · rw [hkeys, hpt]
      simpa using hnd

theorem map_response_unknown_sensor_filtering_witness :
    (∃ m, Inverter._map_response [1, 44, 0, 100, 0, 7] [vpv1, ppv1, xx44] false = .ok m ∧
      m.map Prod.fst
        = (([vpv1, ppv1, xx44].filter (fun s => !(s.id_.startsWith "xx"))).map Sensor.id_) ∧
      (∀ k ∈ m.map Prod.fst, k.startsWith "xx" = false) ∧
      (m.map Prod.fst).Nodup) ∧
    (∃ m, Inverter._map_response [1, 44, 0, 100, 0, 7] [vpv1, ppv1, xx44] true = .ok m ∧
      m.map Prod.fst = [vpv1, ppv1, xx44].map Sensor.id_ ∧
      (m.map Prod.fst).Nodup) :=
  map_response_unknown_sensor_filtering [vpv1, ppv1, xx44] [1, 44, 0, 100, 0, 7]
    (by intro s hs; fin_cases hs <;> rfl)
    (by decide)

/-- C9: the per-sensor containment in `_map_response` applies only to
`ValueError`s: a processed sensor whose read raises any other exception makes
`_map_response` raise that exception, and the whole mapping — entries already
decoded for earlier sensors included — is discarded (the call yields an error,
not a dictionary). -/
theorem map_response_propagates_non_value_errors
    (pre post : List Sensor) (s : Sensor) (buf : List Nat) (incl_xx : Bool) (e : PyError)
    (hp : (incl_xx || !(s.id_.startsWith "xx")) = true)
    (hs : s.read buf = .error e) (he : e ≠ .ValueError)
    (hpre : ∀ t ∈ pre, containedRead (t.read buf) = true) :
    Inverter._map_response buf (pre ++ s :: post) incl_xx = .error e := by
  unfold Inverter._map_response
  rw [_map_response_go_append buf incl_xx pre (s :: post) [] hpre]
  rw [_map_response_go]
  rw [if_pos hp]
  rw [hs]
  cases e with
  | MaxRetriesException a => rfl
  | RequestFailedException m f => rfl
  | ValueError => exact absurd rfl he
  | OtherException m => rfl
  | NotImplementedError => rfl

theorem map_response_propagates_non_value_errors_witness :
    Inverter._map_response [1, 44] ([vpv1] ++ badSensor :: [ppv1]) true
      = .error (.OtherException "boom") :=
  map_response_propagates_non_value_errors [vpv1] [ppv1] badSensor [1, 44] true
    (.OtherException "boom") rfl rfl (by decide)
    (by intro t ht; fin_cases ht; rfl)

theorem read_from_socket_failure_step (inv : Inverter) (r : Except PyError (List Nat))
    (hr : isExchangeFailure r = true) :
    (inv._read_from_socket r).2._consecutive_failures_count
      = inv._consecutive_failures_count + 1 ∧
    ∃ m, (inv._read_from_socket r).1
      = .error (.RequestFailedException m (inv._consecutive_failures_count + 1)) := by
  cases r with
  | ok b => simp [isExchangeFailure] at hr
  | error e =>
    cases e with
    | MaxRetriesException a =>
      exact ⟨rfl, ⟨"No valid response received even after " ++ toString inv.retries ++ " retries", rfl⟩⟩
    | RequestFailedException m f => exact ⟨rfl, ⟨m, rfl⟩⟩
    | ValueError => simp [isExchangeFailure] at hr
    | OtherException m => simp [isExchangeFailure] at hr
    | NotImplementedError => simp [isExchangeFailure] at hr

/-- C4: the consecutive-failure counter increments by exactly one on every
failed execution (the caught max-retries / request-failed kinds), the error
raised carries the counter's value at raise time, and a successful execution
resets the counter to exactly 0; consequently a run of failed exchanges grows
the counter by their number, and any exchange sequence ending in a success
leaves it at 0 regardless of how many failures preceded. -/
theorem consecutive_failures_counter :
    (∀ (inv : Inverter) (r : Except PyError (List Nat)), isExchangeFailure r = true →
      (inv._read_from_socket r).2._consecutive_failures_count
        = inv._consecutive_failures_count + 1 ∧
      ∃ m, (inv._read_from_socket r).1
        = .error (.RequestFailedException m (inv._consecutive_failures_count + 1))) ∧
    (∀ (inv : Inverter) (b : List Nat),
      (inv._read_from_socket (.ok b)).2._consecutive_failures_count = 0) ∧
    (∀ (inv : Inverter) (rs : List (Except PyError (List Nat))),
      (∀ r ∈ rs, isExchangeFailure r = true) →
      (runExchanges inv rs)._consecutive_failures_count
        = inv._consecutive_failures_count + rs.length) ∧
    (∀ (inv : Inverter) (rs : List (Except PyError (List Nat))) (b : List Nat),
      (runExchanges inv (rs ++ [.ok b]))._consecutive_failures_count = 0) := by
  refine ⟨read_from_socket_failure_step, fun _ _ => rfl, ?_, ?_⟩
  · intro inv rs
    induction rs generalizing inv with
    | nil => intro _; simp [runExchanges]
    | cons r rest ih =>
      intro hall
      have hr : isExchangeFailure r = true := hall r (by simp)
      have hrest : ∀ u ∈ rest, isExchangeFailure u = true :=
        fun u hu => hall u (by simp [hu])
      have hstep := (read_from_socket_failure_step inv r hr).1
      unfold runExchanges at ih ⊢
      rw [List.foldl_cons]
      rw [ih _ hrest, hstep]
      simp only [List.length_cons]
      omega
  · intro inv rs b
    unfold runExchanges
    rw [List.foldl_append]
    rfl

theorem consecutive_failures_counter_witness :
    (runExchanges (Inverter.init "inverter.local" 0 1 3)
        [.error (.MaxRetriesException 4), .error (.RequestFailedException "timeout" 0)]
      )._consecutive_failures_count
      = (Inverter.init "inverter.local" 0 1 3)._consecutive_failures_count + 2 ∧
    (runExchanges (Inverter.init "inverter.local" 0 1 3)
        ([.error (.MaxRetriesException 4), .error (.RequestFailedException "timeout" 0)]
          ++ [.ok [1, 2]]))._consecutive_failures_count = 0 :=
  ⟨consecutive_failures_counter.2.2.1 (Inverter.init "inverter.local" 0 1 3)
      [.error (.MaxRetriesException 4), .error (.RequestFailedException "timeout" 0)]
      (by intro r hr; fin_cases hr <;> rfl),
   consecutive_failures_counter.2.2.2 (Inverter.init "inverter.local" 0 1 3)
      [.error (.MaxRetriesException 4), .error (.RequestFailedException "timeout" 0)] [1, 2]⟩

/-- C1 counterexample: with `retries = 3` and a validator rejecting every
response, the command execution raises a max-retries error, but the error that
`_read_from_socket` raises to the caller is not of the max-retries kind: it is
a `RequestFailedException` (message naming the 3 retries, failure count 1) —
the max-retries kind does not propagate unchanged. -/
theorem read_from_socket_exhausted_kind_replaced :
    raisedMaxRetries ((Inverter.init "localhost" 0 1 3)._read_from_socket
      ((ProtocolCommand.mk [1, 2] (fun _ => false)).execute (fun _ => none) 3)).1 = false ∧
    ((Inverter.init "localhost" 0 1 3)._read_from_socket
      ((ProtocolCommand.mk [1, 2] (fun _ => false)).execute (fun _ => none) 3)).1
      = .error (.RequestFailedException "No valid response received even after 3 retries" 1) :=
  ⟨rfl, rfl⟩

/-- C1 (amended): if the command execution fails validation on every attempt,
`execute` raises a max-retries error whose attempt count equals `retries + 1`;
`_read_from_socket` catches it and raises to the caller a request-failed error
(the kind is replaced) whose message reports the configured `retries` and which
carries the failure-count context; the consecutive-failure counter increments
by exactly 1. -/
theorem read_from_socket_exhausted_retries (inv : Inverter) (cmd : ProtocolCommand)
    (responses : Nat → Option (List Nat))
    (hrej : ∀ i r, responses i = some r → cmd.validator r = false) :
    cmd.execute responses inv.retries = .error (.MaxRetriesException (inv.retries + 1)) ∧
    (inv._read_from_socket (cmd.execute responses inv.retries)).1
      = .error (.RequestFailedException
          ("No valid response received even after " ++ toString inv.retries ++ " retries")
          (inv._consecutive_failures_count + 1)) ∧
    (inv._read_from_socket (cmd.execute responses inv.retries)).2._consecutive_failures_count
      = inv._consecutive_failures_count + 1 := by
  have hex : cmd.execute responses inv.retries
      = .error (.MaxRetriesException (inv.retries + 1)) :=
    executeLoop_all_rejected cmd.validator responses (inv.retries + 1) hrej (inv.retries + 1) 0
  refine ⟨hex, ?_, ?_⟩ <;> rw [hex] <;> rfl

theorem read_from_socket_exhausted_retries_witness :
    (ProtocolCommand.mk [170, 85] (fun _ => false)).execute (fun _ => some [1, 2])
        (Inverter.init "inverter.local" 0 1 2).retries
      = .error (.MaxRetriesException ((Inverter.init "inverter.local" 0 1 2).retries + 1)) ∧
    ((Inverter.init "inverter.local" 0 1 2)._read_from_socket
        ((ProtocolCommand.mk [170, 85] (fun _ => false)).execute (fun _ => some [1, 2])
          (Inverter.init "inverter.local" 0 1 2).retries)).1
      = .error (.RequestFailedException
          ("No valid response received even after "
            ++ toString (Inverter.init "inverter.local" 0 1 2).retries ++ " retries")
          ((Inverter.init "inverter.local" 0 1 2)._consecutive_failures_count + 1)) ∧
    ((Inverter.init "inverter.local" 0 1 2)._read_from_socket
        ((ProtocolCommand.mk [170, 85] (fun _ => false)).execute (fun _ => some [1, 2])
          (Inverter.init "inverter.local" 0 1 2).retries)).2._consecutive_failures_count
      = (Inverter.init "inverter.local" 0 1 2)._consecutive_failures_count + 1 :=
  read_from_socket_exhausted_retries (Inverter.init "inverter.local" 0 1 2)
    (ProtocolCommand.mk [170, 85] (fun _ => false)) (fun _ => some [1, 2])
    (fun _ _ _ => rfl)

/-- C5: `_ensure_lock` returns the existing guard exactly when one exists and
its recorded creating loop is the currently active loop; in every other case
(no guard yet, or the recorded loop differs from the active one) it returns a
fresh guard and records the active loop alongside it — staleness is decided
purely by comparing loop identities. -/
theorem ensure_lock_loop_affinity (inv : Inverter) (current_loop fresh_lock : Nat) :
    (∀ l, inv._lock = some l → inv._running_loop = some current_loop →
      inv._ensure_lock current_loop fresh_lock = (l, inv)) ∧
    ((inv._lock = none ∨ inv._running_loop ≠ some current_loop) →
      (inv._ensure_lock current_loop fresh_lock).1 = fresh_lock ∧
      (inv._ensure_lock current_loop fresh_lock).2._lock = some fresh_lock ∧
      (inv._ensure_lock current_loop fresh_lock).2._running_loop = some current_loop) := by
  constructor
  · intro l hl hrl
    unfold Inverter._ensure_lock
    rw [if_pos ⟨by simp [hl], hrl⟩]
    simp [hl]
  · intro h
    have hc : ¬(inv._lock.isSome = true ∧ inv._running_loop = some current_loop) := by
      rintro ⟨hsome, hrl⟩
      rcases h with h | h
      · rw [h] at hsome
        simp at hsome
      · exact h hrl
    unfold Inverter._ensure_lock
    rw [if_neg hc]
    exact ⟨rfl, rfl, rfl⟩

theorem ensure_lock_loop_affinity_witness :
    invWithLock._ensure_lock 1 9 = (7, invWithLock) ∧
    ((invWithLock._ensure_lock 2 9).1 = 9 ∧
      (invWithLock._ensure_lock 2 9).2._lock = some 9 ∧
      (invWithLock._ensure_lock 2 9).2._running_loop = some 2) :=
  ⟨(ensure_lock_loop_affinity invWithLock 1 9).1 7 rfl rfl,
   (ensure_lock_loop_affinity invWithLock 2 9).2 (Or.inr (by decide))⟩

/-- C7: a freshly constructed `Inverter` has every identity field in its unset
state — `None` for the optional fields and the `0` sentinel for the `int`
field `arm_sw_version` — and no non-device-info base-class operation
(`_ensure_lock`, `_read_from_socket`, `send_command`) changes any identity
field. -/
theorem identity_fields_unset_until_device_info :
    (∀ (host : String) (comm_addr timeout retries : Nat),
      identityFields (Inverter.init host comm_addr timeout retries)
        = (none, none, none, none, none, none, none, none, none, 0, none, none)) ∧
    (∀ (inv : Inverter) (r : Except PyError (List Nat)),
      identityFields (inv._read_from_socket r).2 = identityFields inv) ∧
    (∀ (inv : Inverter) (current_loop fresh_lock : Nat),
      identityFields (inv._ensure_lock current_loop fresh_lock).2 = identityFields inv) ∧
    (∀ (inv : Inverter) (command : List Nat) (validator : List Nat → Bool)
        (responses : Nat → Option (List Nat)),
      identityFields (inv.send_command command validator responses).2 = identityFields inv) := by
  refine ⟨fun _ _ _ _ => rfl, ?_, ?_, ?_⟩
  · intro inv r
    cases r with
    | ok b => rfl
    | error e => cases e <;> rfl
  · intro inv current_loop fresh_lock
    unfold Inverter._ensure_lock
    by_cases h : inv._lock.isSome = true ∧ inv._running_loop = some current_loop
    · rw [if_pos h]
    · rw [if_neg h]
      rfl
  · intro inv command validator responses
    unfold Inverter.send_command
    cases hx : (ProtocolCommand.mk command validator).execute responses inv.retries with
    | ok b => rfl
    | error e => cases e <;> rfl

/-- C8: every abstract high-level operation of the base `Inverter` raises
`NotImplementedError` when invoked on the base type, and the core never
catches or retries it: `_read_from_socket`'s handlers pass a
`NotImplementedError` through unchanged, with no state change. -/
theorem abstract_operations_not_implemented :
    (∀ (inv : Inverter) (b : Bool) (sid : String) (v : Value) (lim mode power dod : Int),
      inv.read_device_info = .error .NotImplementedError ∧
      inv.read_runtime_data b = .error .NotImplementedError ∧
      inv.read_setting sid = .error .NotImplementedError ∧
      inv.write_setting sid v = .error .NotImplementedError ∧
      inv.read_settings_data = .error .NotImplementedError ∧
      inv.get_grid_export_limit = .error .NotImplementedError ∧
      inv.set_grid_export_limit lim = .error .NotImplementedError ∧
      inv.get_operation_mode = .error .NotImplementedError ∧
      inv.set_operation_mode mode power = .error .NotImplementedError ∧
      inv.get_ongrid_battery_dod = .error .NotImplementedError ∧
      inv.set_ongrid_battery_dod dod = .error .NotImplementedError ∧
      inv.sensors = .error .NotImplementedError ∧
      inv.settings = .error .NotImplementedError) ∧
    (∀ (inv : Inverter),
      inv._read_from_socket (.error .NotImplementedError)
        = (.error .NotImplementedError, inv)) :=
  ⟨fun _ _ _ _ _ _ _ _ => ⟨rfl, rfl, rfl, rfl, rfl, rfl, rfl, rfl, rfl, rfl, rfl, rfl, rfl⟩,
   fun _ => rfl⟩

/-- C10: the default validator of `send_command` accepts every byte sequence,
so with the default validator no response is ever rejected at the validation
step: the first delivered response is returned as-is. -/
theorem send_command_default_validator_accepts_all :
    (∀ bs : List Nat, defaultValidator bs = true) ∧
    (∀ (command : List Nat) (responses : Nat → Option (List Nat)) (retries : Nat)
        (r : List Nat), responses 0 = some r →
      (ProtocolCommand.mk command defaultValidator).execute responses retries = .ok r) := by
  refine ⟨fun _ => rfl, ?_⟩
  intro command responses retries r h0
  unfold ProtocolCommand.execute
  rw [executeLoop]
  rw [h0]
  rfl

theorem send_command_default_validator_accepts_all_witness :
    (ProtocolCommand.mk [1, 2, 3] defaultValidator).execute (fun _ => some [9, 9]) 3
      = .ok [9, 9] :=
  send_command_default_validator_accepts_all.2 [1, 2, 3] (fun _ => some [9, 9]) 3 [9, 9] rfl

end Goodwe
